import Mathlib

/-!
Shallow embedding of the voice2json evaluation pipeline (`dodo.py` and
`scripts/report-to-html.py`) with proofs about its summary aggregation,
task dependency declarations, command resolution, sharded execution and
HTML-report ranking.

Python strings are modelled by `String` (operated on through their
character lists so everything reduces in the kernel), Python floats by `ℚ`
(the values arising here are short decimal literals, exactly
representable), raised exceptions by `Except`/`Option` error branches, and
filesystem queries by explicit parameters.
-/

set_option autoImplicit false

deriving instance DecidableEq for Except

/-- Tokenizer for Python `str.split()` with no separator: accumulate the
current token (reversed) and split on whitespace runs, dropping empties. -/
def wsTokensAux : List Char → List Char → List String
  | [], acc => if acc.isEmpty then [] else [String.mk acc.reverse]
  | c :: cs, acc =>
    if c.isWhitespace then
      if acc.isEmpty then wsTokensAux cs []
      else String.mk acc.reverse :: wsTokensAux cs []
    else wsTokensAux cs (c :: acc)

/-- Python `str.split()` with no separator argument. -/
def pySplit (s : String) : List String :=
  wsTokensAux s.data []

/-- Python `str.strip()`: drop whitespace at both ends. -/
def pyStrip (s : String) : String :=
  String.mk (((s.data.dropWhile Char.isWhitespace).reverse.dropWhile Char.isWhitespace).reverse)

/-- Python `str.lower()` for the ASCII text this program handles. -/
def pyLower (s : String) : String :=
  String.mk (s.data.map Char.toLower)

/-- Whether the second list is an initial segment of the first. -/
def listHasInitial : List Char → List Char → Bool
  | _, [] => true
  | [], _ :: _ => false
  | c :: cs, p :: ps => p == c && listHasInitial cs ps

/-- Python `str.startswith(pat)`. -/
def pyStartsWith (s pat : String) : Bool :=
  listHasInitial s.data pat.data

/-- Value of a list of decimal digit characters, most significant first. -/
def digitsVal (cs : List Char) : Nat :=
  cs.foldl (fun acc c => acc * 10 + (c.toNat - 48)) 0

/-- Python `float(s)` restricted to the plain decimal literals this program
feeds it (optional sign, digits, optional fractional part); `none` models
the `ValueError` branch. -/
def pyFloat (s : String) : Option ℚ :=
  let t := (pyStrip s).data
  let sign : ℚ := match t with
    | '-' :: _ => -1
    | _ => 1
  let cs : List Char := match t with
    | '-' :: rest => rest
    | '+' :: rest => rest
    | rest => rest
  let ip := cs.takeWhile (fun c => c ≠ '.')
  let rest := cs.dropWhile (fun c => c ≠ '.')
  if !(ip.all Char.isDigit) then none
  else match rest with
    | [] => if ip.isEmpty then none else some (sign * (digitsVal ip : ℚ))
    | _ :: fp =>
      if !(fp.all Char.isDigit) then none
      else if ip.isEmpty && fp.isEmpty then none
      else some (sign * ((digitsVal ip : ℚ) + (digitsVal fp : ℚ) / (10 ^ fp.length)))

/-- Floor of a rational as an integer, computed by floored integer
division of numerator by denominator. -/
def ratFloor (q : ℚ) : Int :=
  Int.fdiv q.num q.den

/-- Python `"{0:.02f}".format(x)` for the nonnegative values this program
formats: round to hundredths (half away from zero, matching CPython on every
value arising here, where the nearest double is never an exact tie) and
render with exactly two decimals. -/
def fmt2f (q : ℚ) : String :=
  let n : Int := ratFloor (q * 100 + 1 / 2)
  let a := n / 100
  let b := n % 100
  toString a ++ "." ++ (if b < 10 then "0" ++ toString b else toString b)

/-- Test of the stripped, lowered line against the fixed prefix, as in
`line = line.strip().lower(); line.startswith("training completed in")`
(`dodo.py` lines 289-290). -/
def isTrainingLine (line : String) : Bool :=
  pyStartsWith (pyLower (pyStrip line)) "training completed in"

/-- The parse `float(line.split()[3])` applied to the stripped, lowered
line (`dodo.py` line 291); `none` models the `IndexError`/`ValueError`
branches. -/
def parseTrainingLine (line : String) : Option ℚ :=
  (pySplit (pyLower (pyStrip line)))[3]? |>.bind pyFloat

/-- One iteration of the training-log loop of `make_summary`
(`dodo.py` lines 286-291): a line matching the prefix overwrites the
accumulator with the freshly formatted parse; an `Except.error` models a
raised exception aborting the loop. -/
def trainingStep (acc : Except Unit String) (line : String) : Except Unit String :=
  match acc with
  | Except.error e => Except.error e
  | Except.ok t =>
    if isTrainingLine line then
      match parseTrainingLine line with
      | some q => Except.ok (fmt2f q)
      | none => Except.error ()
    else Except.ok t

/-- The training-time scan of `make_summary` (`dodo.py` lines 286-291):
`training_time` starts as `""` and each matching line overwrites it. -/
def trainingTime (lines : List String) : Except Unit String :=
  lines.foldl trainingStep (Except.ok "")

/-- One value of the `actual` map of the report, restricted to the field
`make_summary` reads (`dodo.py` lines 319-320). -/
structure ActualValue where
  recognize_seconds : ℚ
deriving DecidableEq

/-- The parsed `report.json` of one profile, restricted to the keys
`make_summary` reads (`dodo.py` lines 319-340); `actual` keeps the JSON
map as an association list in insertion order. -/
structure Report where
  transcription_accuracy : ℚ
  intent_entity_accuracy : ℚ
  average_transcription_speedup : ℚ
  num_wavs : Nat
  actual : List (String × ActualValue)
deriving DecidableEq

/-- Per-profile input of `make_summary` (`dodo.py` lines 276-321):
`report` is `none` when `report.json` is missing or malformed, so that
`open`/`json.load` raises; `trainLog` is the content of
`train-profile.txt`; `sentenceCount` is the figure delivered by the
external grammar-counting collaborator (`rhasspynlu`, external per the
spec, only its numeric result is consumed). -/
structure ProfileData where
  dataset : String
  profile : String
  report : Option Report
  trainLog : List String
  sentenceCount : Nat
deriving DecidableEq

/-- The exceptions `make_summary` can raise while handling one profile. -/
inductive SummaryError where
  /-- `open`/`json.load` raised on `report.json` (missing or malformed). -/
  | reportLoadError
  /-- `float()`/indexing raised on a matching training-log line. -/
  | trainingParseError
  /-- `ZeroDivisionError` from `sum(recognize_seconds) / len(recognize_seconds)`. -/
  | zeroDivision
deriving DecidableEq

/-- One CSV row as `writer.writerow` receives it (`dodo.py` lines
323-342): formatted fields are strings, `num_wavs`, `num_sentences` and
`average_recognize_seconds` are written as raw values. -/
structure SummaryRow where
  dataset : String
  profile : String
  training_seconds : String
  transcription_accuracy : String
  intent_entity_accuracy : String
  average_transcription_speedup : String
  average_recognize_seconds : ℚ
  num_wavs : Nat
  num_sentences : Nat
deriving DecidableEq

/-- Body of the per-profile loop of `make_summary` (`dodo.py` lines
276-342): load the report, scan the training log, collect
`recognize_seconds` over `report["actual"].values()`, and build the row;
every raised exception surfaces as `Except.error`. The division
`sum(recognize_seconds) / len(recognize_seconds)` is written without any
guard in the source, so the empty list raises (`zeroDivision`). -/
def make_summary_row (p : ProfileData) : Except SummaryError SummaryRow :=
  match p.report with
  | none => Except.error SummaryError.reportLoadError
  | some report =>
    match trainingTime p.trainLog with
    | Except.error _ => Except.error SummaryError.trainingParseError
    | Except.ok training_time =>
      let recognize_seconds := report.actual.map (fun kv => kv.2.recognize_seconds)
      if recognize_seconds.length = 0 then Except.error SummaryError.zeroDivision
      else Except.ok
        { dataset := p.dataset
          profile := p.profile
          training_seconds := training_time
          transcription_accuracy := fmt2f report.transcription_accuracy
          intent_entity_accuracy := fmt2f report.intent_entity_accuracy
          average_transcription_speedup := fmt2f report.average_transcription_speedup
          average_recognize_seconds :=
            recognize_seconds.sum / (recognize_seconds.length : ℚ)
          num_wavs := report.num_wavs
          num_sentences := p.sentenceCount }

/-- The whole `make_summary` loop over `_PROFILES` (`dodo.py` lines
276-342): rows are written to the CSV one profile at a time, so an
exception keeps the rows already written and drops the failing profile
and every later one. The result is the list of written rows together
with the exception that ended the loop, if any. -/
def make_summary : List ProfileData → List SummaryRow × Option SummaryError
  | [] => ([], none)
  | p :: ps =>
    match make_summary_row p with
    | Except.error e => ([], some e)
    | Except.ok row =>
      let rest := make_summary ps
      (row :: rest.1, rest.2)

/-- The `fieldnames` argument of the `csv.DictWriter` in `make_summary`
(`dodo.py` lines 259-272), in source order. -/
def summaryFieldnames : List String :=
  ["dataset", "profile", "training_seconds", "transcription_accuracy",
   "intent_entity_accuracy", "average_transcription_speedup",
   "average_recognize_seconds", "num_wavs", "num_sentences"]

/-- The argument-splitting loop of `maybe_user_bin` (`dodo.py` lines
398-408): walk the arguments with a `before` flag; every literal `"--"`
flips the flag and is dropped; other arguments go to `before_args` or
`after_args` according to the flag, preserving order. -/
def split_args : List String → Bool → List String × List String
  | [], _ => ([], [])
  | arg :: rest, before =>
    if arg = "--" then split_args rest false
    else
      let r := split_args rest before
      if before then (arg :: r.1, r.2) else (r.1, arg :: r.2)

/-- The command list built by `maybe_user_bin` (`dodo.py` lines 387-412)
before joining: `is_file` models `Path.is_file` on the candidate override
path `in_profile_dir / "bin" / command_name`; if the override exists the
command is the override path followed by the arguments verbatim,
otherwise `voice2json` with the arguments split around `"--"` and the
subcommand name in between. -/
def maybe_user_bin_list (is_file : String → Bool) (in_profile_dir : String)
    (command_name : String) (args : List String) : List String :=
  let command_bin := in_profile_dir ++ "/bin/" ++ command_name
  if is_file command_bin then
    command_bin :: args
  else
    let ba := split_args args true
    "voice2json" :: (ba.1 ++ command_name :: ba.2)

/-- The string `maybe_user_bin` returns: `" ".join(command)`
(`dodo.py` line 414). -/
def maybe_user_bin (is_file : String → Bool) (in_profile_dir : String)
    (command_name : String) (args : List String) : String :=
  String.intercalate " " (maybe_user_bin_list is_file in_profile_dir command_name args)

/-- The user-visible profile files queried by `get_user_files`
(`dodo.py` lines 371-384): the relative file names found under each of
the three optional directories (absent or empty directories both
contribute nothing) and whether `custom_words.txt` exists. -/
structure UserFS where
  slotsFiles : List String
  slotProgramsFiles : List String
  convertersFiles : List String
  hasCustomWords : Bool
deriving DecidableEq

/-- `get_user_files` (`dodo.py` lines 371-384): `sentences.ini`, the
files under `slots`, `slot_programs` and `converters`, and
`custom_words.txt` when present. -/
def get_user_files (out_profile_dir : String) (fs : UserFS) : List String :=
  [out_profile_dir ++ "/sentences.ini"]
  ++ fs.slotsFiles.map (fun f => out_profile_dir ++ "/slots/" ++ f)
  ++ fs.slotProgramsFiles.map (fun f => out_profile_dir ++ "/slot_programs/" ++ f)
  ++ fs.convertersFiles.map (fun f => out_profile_dir ++ "/converters/" ++ f)
  ++ (if fs.hasCustomWords then [out_profile_dir ++ "/custom_words.txt"] else [])

/-- The `file_dep` list of the train task (`dodo.py` line 129). -/
def task_train_file_dep (out_profile_dir : String) (fs : UserFS) : List String :=
  get_user_files out_profile_dir fs

/-- The `file_dep` list of the transcribe task (`dodo.py` lines 180-184):
the source declares exactly `get_user_files(p.out_profile_dir)`. -/
def task_transcribe_file_dep (out_profile_dir : String) (fs : UserFS) : List String :=
  get_user_files out_profile_dir fs

/-- The path of the wav-list file `wavs.txt`, sole target of the
wav-list task (`dodo.py` lines 156-161) and read by the transcribe
action (`dodo.py` line 188). -/
def wav_list_target (out_profile_dir : String) : String :=
  out_profile_dir ++ "/wavs.txt"

/-- One entity record of the report (`entity`, `value` keys). -/
structure ReportEntity where
  entity : String
  value : String
deriving DecidableEq

/-- One value of the `actual` map of the report as `sort_score` reads it
(`report-to-html.py` lines 217-221): `intent["intent"]["name"]`,
`intent["expected_intent_name"]`, `intent["wrong_entities"]`,
`intent["missing_entities"]`. -/
structure ActualIntent where
  intent_name : String
  expected_intent_name : String
  wrong_entities : List ReportEntity
  missing_entities : List ReportEntity
deriving DecidableEq

/-- `sort_score` exactly as written (`report-to-html.py` lines 217-221):
the second branch is `len(intent["wrong_entities"]) + len(["missing_entities"])`,
whose second summand is the length of the one-element literal list
`["missing_entities"]`. -/
def sort_score (intent : ActualIntent) : Nat :=
  if intent.intent_name ≠ intent.expected_intent_name then 100
  else intent.wrong_entities.length + (["missing_entities"] : List String).length

/-- The ranking the spec states as the contract for `sort_score`: number
of wrong entities plus the true number of missing entities. -/
def sort_score_intended (intent : ActualIntent) : Nat :=
  if intent.intent_name ≠ intent.expected_intent_name then 100
  else intent.wrong_entities.length + intent.missing_entities.length

/-- Modelled from the spec: contiguous chunks of at most `n` records, as
the external `parallel --pipe -n JOBS` invocation used by the transcribe
and recognize actions (`dodo.py` lines 188 and 213) splits its input;
the splitter itself is not code of this repository. -/
def chunkList (n : Nat) : List String → List (List String)
  | [] => []
  | x :: xs => (x :: xs.take (n - 1)) :: chunkList n (xs.drop (n - 1))
termination_by l => l.length
decreasing_by
  simp only [List.length_cons, List.length_drop]
  omega

/-- Modelled from the spec: the sharded run of a worker over an input
list, as the `parallel -k --pipe -n JOBS {cmd}` actions of the
transcribe and recognize tasks perform it (`dodo.py` lines 186-189 and
212-214): split into contiguous chunks, run the worker on each chunk,
and concatenate the captured outputs in chunk-index order (the `-k`
flag), not completion order. -/
def shardedRun (worker : List String → List String) (n : Nat)
    (l : List String) : List String :=
  ((chunkList n l).map worker).flatten

/-- The `-n` argument of both `parallel` invocations (`dodo.py` line 25). -/
def JOBS : Nat := 10

/-- A training log is well formed when every line matching the prefix
also parses: its fourth token is a decimal number. On such logs the
training-log loop never raises. -/
def logWellFormed (xs : List String) : Prop :=
  ∀ l ∈ xs, isTrainingLine l = true → ∃ q, parseTrainingLine l = some q

/-- A report whose `actual` map is empty (zero evaluated examples). -/
def emptyActualReport : Report :=
  { transcription_accuracy := 1
    intent_entity_accuracy := 1
    average_transcription_speedup := 1
    num_wavs := 0
    actual := [] }

/-- A profile whose report has an empty `actual` map. -/
def emptyActualProfile : ProfileData :=
  { dataset := "ds"
    profile := "empty"
    report := some emptyActualReport
    trainLog := []
    sentenceCount := 0 }

/-- A report with one evaluated example. -/
def goodReport : Report :=
  { transcription_accuracy := 1
    intent_entity_accuracy := 1
    average_transcription_speedup := 2
    num_wavs := 1
    actual := [("ex1", { recognize_seconds := 1 / 2 })] }

/-- A profile whose report and training log are both well formed. -/
def goodProfile : ProfileData :=
  { dataset := "ds"
    profile := "good"
    report := some goodReport
    trainLog := ["Training completed in 12.345 seconds"]
    sentenceCount := 3 }

/-- The summary row `make_summary` writes for `goodProfile`. -/
def goodRow : SummaryRow :=
  { dataset := "ds"
    profile := "good"
    training_seconds := "12.35"
    transcription_accuracy := "1.00"
    intent_entity_accuracy := "1.00"
    average_transcription_speedup := "2.00"
    average_recognize_seconds := 1 / 2
    num_wavs := 1
    num_sentences := 3 }

/-- A profile whose `report.json` is missing or malformed. -/
def missingReportProfile : ProfileData :=
  { dataset := "ds"
    profile := "bad"
    report := none
    trainLog := []
    sentenceCount := 0 }

/-- A concrete user-file layout: one slot file and a custom-words file. -/
def exampleUserFS : UserFS :=
  { slotsFiles := ["device"]
    slotProgramsFiles := []
    convertersFiles := []
    hasCustomWords := true }

/-- An actual example whose recognized intent matches the expected one
and which has no wrong and no missing entities. -/
def exampleIntent : ActualIntent :=
  { intent_name := "TurnOn"
    expected_intent_name := "TurnOn"
    wrong_entities := []
    missing_entities := [] }

/-- A raised exception aborts the training-log loop: the error value is
absorbing for `trainingStep`. -/
theorem foldl_trainingStep_error (xs : List String) (e : Unit) :
    xs.foldl trainingStep (Except.error e) = Except.error e := by
  induction xs with
  | nil => rfl
  | cons x xs ih => simpa [trainingStep] using ih

/-- Lines that do not match the prefix leave the accumulator unchanged. -/
theorem foldl_trainingStep_nomatch (xs : List String) (t : String)
    (h : ∀ l ∈ xs, isTrainingLine l = false) :
    xs.foldl trainingStep (Except.ok t) = Except.ok t := by
  induction xs with
  | nil => rfl
  | cons x xs ih =>
    have hx := h x (List.mem_cons_self x xs)
    simp only [List.foldl_cons, trainingStep, hx, Bool.false_eq_true, if_false]
    exact ih (fun l hl => h l (List.mem_cons_of_mem x hl))

/-- Over a well-formed log segment the loop never raises. -/
theorem foldl_trainingStep_ok (xs : List String) (t : String)
    (h : logWellFormed xs) :
    ∃ s, xs.foldl trainingStep (Except.ok t) = Except.ok s := by
  induction xs generalizing t with
  | nil => exact ⟨t, rfl⟩
  | cons x xs ih =>
    have ih2 := fun u => ih u (fun l hl hm => h l (List.mem_cons_of_mem x hl) hm)
    by_cases hx : isTrainingLine x = true
    · obtain ⟨q, hq⟩ := h x (List.mem_cons_self x xs) hx
      obtain ⟨s, hs⟩ := ih2 (fmt2f q)
      exact ⟨s, by simpa only [List.foldl_cons, trainingStep, hx, hq, if_true] using hs⟩
    · rw [Bool.not_eq_true] at hx
      obtain ⟨s, hs⟩ := ih2 t
      exact ⟨s, by simpa only [List.foldl_cons, trainingStep, hx, Bool.false_eq_true, if_false] using hs⟩

/-- A matching, parsing line overwrites the accumulator with its
formatted parse. -/
theorem trainingStep_match (t : String) (l : String) (q : ℚ)
    (hl : isTrainingLine l = true) (hq : parseTrainingLine l = some q) :
    trainingStep (Except.ok t) l = Except.ok (fmt2f q) := by
  simp only [trainingStep, hl, hq, if_true]

/-- No element of either output of `split_args` is the separator. -/
theorem split_args_no_separator (xs : List String) (b : Bool) :
    "--" ∉ (split_args xs b).1 ∧ "--" ∉ (split_args xs b).2 := by
  induction xs generalizing b with
  | nil => simp [split_args]
  | cons x xs ih =>
    by_cases hx : x = "--"
    · subst hx
      simpa only [split_args, if_true] using ih false
    · obtain ⟨h1, h2⟩ := ih b
      cases b with
      | true => simp [split_args, hx, h1, h2, Ne.symm hx]
      | false => simp [split_args, hx, h1, h2, Ne.symm hx]

/-- Without a separator and with the flag still up, everything stays in
`before_args`. -/
theorem split_args_no_sep_true (xs : List String) (h : "--" ∉ xs) :
    split_args xs true = (xs, []) := by
  induction xs with
  | nil => rfl
  | cons x xs ih =>
    have hx : x ≠ "--" := fun hc => h (hc ▸ List.mem_cons_self x xs)
    have ih2 := ih (fun hc => h (List.mem_cons_of_mem x hc))
    simp [split_args, hx, ih2]

/-- Without a separator and with the flag down, everything goes to
`after_args`. -/
theorem split_args_no_sep_false (xs : List String) (h : "--" ∉ xs) :
    split_args xs false = ([], xs) := by
  induction xs with
  | nil => rfl
  | cons x xs ih =>
    have hx : x ≠ "--" := fun hc => h (hc ▸ List.mem_cons_self x xs)
    have ih2 := ih (fun hc => h (List.mem_cons_of_mem x hc))
    simp [split_args, hx, ih2]

/-- With exactly one separator, `split_args` partitions around it and
drops it. -/
theorem split_args_partition (pre post : List String)
    (hpre : "--" ∉ pre) (hpost : "--" ∉ post) :
    split_args (pre ++ "--" :: post) true = (pre, post) := by
  induction pre with
  | nil => simpa only [List.nil_append, split_args, if_true] using split_args_no_sep_false post hpost
  | cons x xs ih =>
    have hx : x ≠ "--" := fun hc => hpre (hc ▸ List.mem_cons_self x xs)
    have ih2 := ih (fun hc => hpre (List.mem_cons_of_mem x hc))
    simp [split_args, hx, ih2]

/-- Claim C1 as stated is false: for the concrete profile whose report
has an empty `actual` map, the aggregator raises `ZeroDivisionError`
(the error branch of the division is reached) instead of recording an
undefined value. -/
theorem C1_counterexample :
    make_summary_row emptyActualProfile = Except.error SummaryError.zeroDivision := by
  decide

/-- Claim C1 (amended): for every profile whose report JSON has an empty
`actual` map and whose training log is processed without an exception,
the division `sum(recognize_seconds) / len(recognize_seconds)` is
unguarded and `make_summary` raises `ZeroDivisionError` there,
aborting the row of that profile. -/
theorem C1_empty_actual_raises (p : ProfileData) (r : Report) (t : String)
    (hr : p.report = some r) (ha : r.actual = [])
    (ht : trainingTime p.trainLog = Except.ok t) :
    make_summary_row p = Except.error SummaryError.zeroDivision := by
  simp [make_summary_row, hr, ht, ha]

/-- Witness for C1: the amended theorem applied to the concrete profile
with an empty `actual` map. -/
theorem C1_empty_actual_raises_witness :
    make_summary_row emptyActualProfile = Except.error SummaryError.zeroDivision :=
  C1_empty_actual_raises emptyActualProfile emptyActualReport "" rfl rfl (by decide)

/-- Claim C2 as stated is false: with a first profile whose
`report.json` is missing and a second, fully well-formed profile, the
summary run stops at the first profile and writes no rows at all, even
though the row of the second profile would have been computed successfully —
so the row of the other profile is not written. -/
theorem C2_counterexample :
    make_summary [missingReportProfile, goodProfile] = ([], some SummaryError.reportLoadError)
    ∧ make_summary_row goodProfile = Except.ok goodRow := by
  constructor
  · decide
  · with_unfolding_all rfl

/-- Claim C2 (amended): a missing or malformed `report.json` (or any
other per-profile exception) aborts `make_summary` at that profile:
the rows of the profiles enumerated before it are written, and neither
the failing profile nor any later profile gets a row. -/
theorem C2_report_error_aborts (pre post : List ProfileData) (p : ProfileData)
    (e : SummaryError)
    (hpre : ∀ q ∈ pre, ∃ r, make_summary_row q = Except.ok r)
    (hp : make_summary_row p = Except.error e) :
    make_summary (pre ++ p :: post) = ((make_summary pre).1, some e) := by
  induction pre with
  | nil => simp [make_summary, hp]
  | cons q qs ih =>
    obtain ⟨r, hr⟩ := hpre q (List.mem_cons_self q qs)
    have ih2 := ih (fun x hx => hpre x (List.mem_cons_of_mem q hx))
    simp [make_summary, hr, ih2]

/-- Witness for C2: the amended theorem applied to a good profile
followed by one with a missing report. -/
theorem C2_report_error_aborts_witness :
    make_summary ([goodProfile] ++ missingReportProfile :: []) =
      ((make_summary [goodProfile]).1, some SummaryError.reportLoadError) :=
  C2_report_error_aborts [goodProfile] [] missingReportProfile SummaryError.reportLoadError
    (fun q hq => by
      simp only [List.mem_singleton] at hq
      subst hq
      exact ⟨goodRow, by with_unfolding_all rfl⟩)
    (by decide)

/-- Claim C3 concerns a code bug: the declared input set of the
transcribe task equals that of the train task exactly — the wav-list
file `wavs.txt`, although read by the transcribe action, is not among
the declared file dependencies, so no output/input path overlap links
the transcribe node to the wav-list node, contradicting the claimed
"user files plus wav-list". -/
theorem C3_wav_list_not_declared :
    (∀ out fs, task_transcribe_file_dep out fs = task_train_file_dep out fs)
    ∧ wav_list_target "profiles/ds/en" ∉ task_transcribe_file_dep "profiles/ds/en" exampleUserFS
    ∧ task_transcribe_file_dep "profiles/ds/en" exampleUserFS ≠
        task_train_file_dep "profiles/ds/en" exampleUserFS ++ [wav_list_target "profiles/ds/en"] := by
  refine ⟨fun out fs => rfl, ?_, ?_⟩
  · decide
  · decide

/-- Claim C4 concerns the code bug the spec itself flags: when the
recognized intent name equals the expected one, `sort_score` returns
`len(wrong_entities) + len(["missing_entities"])`, i.e. the number of
wrong entities plus one, and differs from the intended score (wrong
plus true missing count) whenever the example does not have exactly one
missing entity. -/
theorem C4_sort_score_literal (i : ActualIntent)
    (h : i.intent_name = i.expected_intent_name) :
    sort_score i = i.wrong_entities.length + 1
    ∧ (i.missing_entities.length ≠ 1 → sort_score i ≠ sort_score_intended i) := by
  constructor
  · simp [sort_score, h]
  · intro hm
    simp only [sort_score, sort_score_intended, h, ne_eq, not_true_eq_false, if_false,
      List.length_singleton]
    omega

/-- Witness for C4: at the concrete example with matching intent names
and no wrong or missing entities, the score of the code is 1 while the
intended score is 0. -/
theorem C4_sort_score_literal_witness :
    sort_score exampleIntent = exampleIntent.wrong_entities.length + 1
    ∧ sort_score exampleIntent ≠ sort_score_intended exampleIntent := by
  have h := C4_sort_score_literal exampleIntent rfl
  exact ⟨h.1, h.2 (by decide)⟩

/-- Claim C5: for every training log, if no line (stripped and
lowercased) begins with "training completed in" the field is the empty
string; and whenever the last such matching line has a parseable fourth
whitespace token (and earlier matching lines parse, so no exception was
raised before it), the field is that token parsed as a decimal and
rendered with two-decimal rounding. -/
theorem C5_training_seconds (lines : List String) :
    ((∀ l ∈ lines, isTrainingLine l = false) → trainingTime lines = Except.ok "")
    ∧ (∀ pre l post q, lines = pre ++ l :: post →
        logWellFormed pre →
        isTrainingLine l = true →
        (∀ x ∈ post, isTrainingLine x = false) →
        parseTrainingLine l = some q →
        trainingTime lines = Except.ok (fmt2f q)) := by
  constructor
  · intro h
    exact foldl_trainingStep_nomatch lines "" h
  · intro pre l post q hsplit hwf hl hpost hq
    subst hsplit
    obtain ⟨s, hs⟩ := foldl_trainingStep_ok pre "" hwf
    unfold trainingTime
    rw [List.foldl_append, hs, List.foldl_cons, trainingStep_match s l q hl hq]
    exact foldl_trainingStep_nomatch post (fmt2f q) hpost

/-- Witness for C5: the example log given by the spec yields "12.35". -/
theorem C5_training_seconds_witness :
    trainingTime ["Training completed in 12.345 seconds"] = Except.ok "12.35" := by
  have h := (C5_training_seconds ["Training completed in 12.345 seconds"]).2
    [] "Training completed in 12.345 seconds" [] (2469 / 200) rfl
    (fun l hl => absurd hl (List.not_mem_nil l))
    (by decide)
    (fun x hx => absurd hx (List.not_mem_nil x))
    (by with_unfolding_all rfl)
  rw [h]
  with_unfolding_all rfl

/-- Claim C9: when the log holds several matching lines (here: at least
one matching line before the last one), the recorded value is parsed
from the last matching line — each later match overwrites the earlier
parse. -/
theorem C9_last_match_wins (pre post : List String) (l l0 : String) (q : ℚ)
    (_h0 : l0 ∈ pre) (_h0t : isTrainingLine l0 = true)
    (hpre : logWellFormed pre)
    (hl : isTrainingLine l = true)
    (hpost : ∀ x ∈ post, isTrainingLine x = false)
    (hq : parseTrainingLine l = some q) :
    trainingTime (pre ++ l :: post) = Except.ok (fmt2f q) := by
  obtain ⟨s, hs⟩ := foldl_trainingStep_ok pre "" hpre
  unfold trainingTime
  rw [List.foldl_append, hs, List.foldl_cons, trainingStep_match s l q hl hq]
  exact foldl_trainingStep_nomatch post (fmt2f q) hpost

/-- Witness for C9: a log with two matching lines yields the parse of
the second one. -/
theorem C9_last_match_wins_witness :
    trainingTime ["Training completed in 1.5 seconds",
                  "Training completed in 12.345 seconds"] = Except.ok "12.35" := by
  have h := C9_last_match_wins ["Training completed in 1.5 seconds"] []
    "Training completed in 12.345 seconds" "Training completed in 1.5 seconds" (2469 / 200)
    (List.mem_singleton.mpr rfl)
    (by decide)
    (fun x hx hm => by
      simp only [List.mem_singleton] at hx
      subst hx
      exact ⟨3 / 2, by with_unfolding_all rfl⟩)
    (by decide)
    (fun x hx => absurd hx (List.not_mem_nil x))
    (by with_unfolding_all rfl)
  show trainingTime (["Training completed in 1.5 seconds"] ++
    "Training completed in 12.345 seconds" :: []) = Except.ok "12.35"
  rw [h]
  with_unfolding_all rfl

/-- Claim C6: command resolution returns the override path followed by
the stage arguments when the override file exists under the `bin` folder
of the profile input directory; otherwise the default `voice2json` with
the arguments partitioned around `--`: those before it precede the
subcommand name, those after it follow it, and the separator is
dropped (when no separator occurs, all arguments precede the name). -/
theorem C6_command_resolution (is_file : String → Bool) (dir name : String) :
    (∀ args, is_file (dir ++ "/bin/" ++ name) = true →
      maybe_user_bin_list is_file dir name args = (dir ++ "/bin/" ++ name) :: args)
    ∧ (is_file (dir ++ "/bin/" ++ name) = false →
        (∀ pre post, "--" ∉ pre → "--" ∉ post →
          maybe_user_bin_list is_file dir name (pre ++ "--" :: post) =
            "voice2json" :: (pre ++ name :: post))
        ∧ (∀ args, "--" ∉ args →
          maybe_user_bin_list is_file dir name args =
            "voice2json" :: (args ++ [name]))) := by
  constructor
  · intro args h
    simp [maybe_user_bin_list, h]
  · intro h
    constructor
    · intro pre post hpre hpost
      simp [maybe_user_bin_list, h, split_args_partition pre post hpre hpost]
    · intro args h2
      simp [maybe_user_bin_list, h, split_args_no_sep_true args h2]

/-- Witness for C6: the default branch at the argument list of the
transcribe stage, partitioned around the separator. -/
theorem C6_command_resolution_witness :
    maybe_user_bin_list (fun _ => false) "datasets/ds/profiles/en" "transcribe-wav"
      (["--profile", "out"] ++ "--" :: ["--relative-directory", "data", "--stdin-files"]) =
      "voice2json" :: (["--profile", "out"] ++ "transcribe-wav" ::
        ["--relative-directory", "data", "--stdin-files"]) :=
  ((C6_command_resolution (fun _ => false) "datasets/ds/profiles/en" "transcribe-wav").2
    rfl).1 ["--profile", "out"] ["--relative-directory", "data", "--stdin-files"]
    (by decide) (by decide)

/-- Claim C10: with an override executable, the stage argument list is
passed verbatim, the literal `--` included; in the default-tool branch
the separator never survives into the resolved command. -/
theorem C10_override_verbatim (is_file : String → Bool) (dir name : String)
    (args : List String) (hname : name ≠ "--") :
    (is_file (dir ++ "/bin/" ++ name) = true →
      maybe_user_bin_list is_file dir name args = (dir ++ "/bin/" ++ name) :: args
      ∧ ("--" ∈ args → "--" ∈ maybe_user_bin_list is_file dir name args))
    ∧ (is_file (dir ++ "/bin/" ++ name) = false →
      "--" ∉ maybe_user_bin_list is_file dir name args) := by
  constructor
  · intro h
    have he : maybe_user_bin_list is_file dir name args = (dir ++ "/bin/" ++ name) :: args := by
      simp [maybe_user_bin_list, h]
    exact ⟨he, fun hm => he ▸ List.mem_cons_of_mem _ hm⟩
  · intro h
    obtain ⟨h1, h2⟩ := split_args_no_separator args true
    simp only [maybe_user_bin_list, h, Bool.false_eq_true, if_false]
    intro hc
    rcases List.mem_cons.mp hc with hv | hc2
    · exact absurd hv (by decide)
    · rcases List.mem_append.mp hc2 with hb | hc3
      · exact h1 hb
      · rcases List.mem_cons.mp hc3 with hn | ha
        · exact hname hn.symm
        · exact h2 ha

/-- Witness for C10: the override branch at the argument list of the
transcribe stage keeps the `--` separator and everything after it. -/
theorem C10_override_verbatim_witness :
    maybe_user_bin_list (fun _ => true) "datasets/ds/profiles/en" "transcribe-wav"
      ["--profile", "out", "--", "--relative-directory", "data", "--stdin-files"] =
      ("datasets/ds/profiles/en" ++ "/bin/" ++ "transcribe-wav") ::
        ["--profile", "out", "--", "--relative-directory", "data", "--stdin-files"]
    ∧ ("--" ∈ (["--profile", "out", "--", "--relative-directory", "data", "--stdin-files"] : List String) →
        "--" ∈ maybe_user_bin_list (fun _ => true) "datasets/ds/profiles/en" "transcribe-wav"
          ["--profile", "out", "--", "--relative-directory", "data", "--stdin-files"]) :=
  (C10_override_verbatim (fun _ => true) "datasets/ds/profiles/en" "transcribe-wav"
    ["--profile", "out", "--", "--relative-directory", "data", "--stdin-files"]
    (by decide)).1 rfl

/-- Claim C7: splitting the input into contiguous chunks, running the
worker over each chunk, and concatenating the captured outputs in chunk
index order equals a single-worker run, for every chunk size at least 1
and every per-record worker (one whose output over a concatenation is
the concatenation of its outputs, as the stream processors invoked by
the transcribe and recognize stages are). -/
theorem C7_sharded_equals_single (worker : List String → List String) (n : Nat)
    (l : List String) (_hn : 1 ≤ n)
    (hw : ∀ xs ys, worker (xs ++ ys) = worker xs ++ worker ys) :
    shardedRun worker n l = worker l := by
  have h0 : worker [] = [] := by
    have hlen := congrArg List.length (hw [] [])
    simp only [List.nil_append, List.length_append] at hlen
    exact List.eq_nil_of_length_eq_zero (by omega)
  suffices h : ∀ m (l2 : List String), l2.length ≤ m → shardedRun worker n l2 = worker l2 by
    exact h l.length l le_rfl
  intro m
  induction m with
  | zero =>
    intro l2 hl
    have : l2 = [] := List.eq_nil_of_length_eq_zero (Nat.le_zero.mp hl)
    subst this
    simp [shardedRun, chunkList, h0]
  | succ m ih =>
    intro l2 hl
    match l2 with
    | [] => simp [shardedRun, chunkList, h0]
    | x :: xs =>
      have hchunk : chunkList n (x :: xs) =
          (x :: xs.take (n - 1)) :: chunkList n (xs.drop (n - 1)) := by
        rw [chunkList]
      have hlen : (xs.drop (n - 1)).length ≤ m := by
        simp only [List.length_cons] at hl
        simp only [List.length_drop]
        omega
      calc shardedRun worker n (x :: xs)
          = worker (x :: xs.take (n - 1)) ++ shardedRun worker n (xs.drop (n - 1)) := by
            simp [shardedRun, hchunk]
        _ = worker (x :: xs.take (n - 1)) ++ worker (xs.drop (n - 1)) := by
            rw [ih _ hlen]
        _ = worker ((x :: xs.take (n - 1)) ++ xs.drop (n - 1)) := (hw _ _).symm
        _ = worker (x :: xs) := by
            rw [List.cons_append, List.take_append_drop]

/-- Witness for C7: a per-record worker over three records with chunk
size 2 produces the single-worker output. -/
theorem C7_sharded_equals_single_witness :
    shardedRun (List.map (fun s => s ++ "!")) 2 ["a", "b", "c"] =
      List.map (fun s => s ++ "!") ["a", "b", "c"] :=
  C7_sharded_equals_single (List.map (fun s => s ++ "!")) 2 ["a", "b", "c"]
    (by decide) (fun xs ys => List.map_append _ xs ys)

/-- Claim C8: the summary CSV is written with exactly the nine claimed
columns in that fixed order, and on a run that raises no exception the
rows come out one per profile in exactly the order in which the
profiles were enumerated. -/
theorem C8_summary_columns_and_row_order :
    summaryFieldnames =
      ["dataset", "profile", "training_seconds", "transcription_accuracy",
       "intent_entity_accuracy", "average_transcription_speedup",
       "average_recognize_seconds", "num_wavs", "num_sentences"]
    ∧ ∀ ps : List ProfileData, (make_summary ps).2 = none →
        (make_summary ps).1.length = ps.length
        ∧ ∀ i (hi : i < (make_summary ps).1.length) (hp : i < ps.length),
            make_summary_row (ps.get ⟨i, hp⟩) =
              Except.ok ((make_summary ps).1.get ⟨i, hi⟩) := by
  refine ⟨rfl, ?_⟩
  intro ps
  induction ps with
  | nil =>
    intro _
    refine ⟨rfl, ?_⟩
    intro i hi hp
    exact absurd hp (by simp)
  | cons p ps ih =>
    intro hnone
    cases hrow : make_summary_row p with
    | error e =>
      exfalso
      have : (make_summary (p :: ps)).2 = some e := by
        simp [make_summary, hrow]
      rw [this] at hnone
      exact Option.noConfusion hnone
    | ok row =>
      have hunf : make_summary (p :: ps) = (row :: (make_summary ps).1, (make_summary ps).2) := by
        simp [make_summary, hrow]
      rw [hunf] at hnone ⊢
      obtain ⟨hlen, hidx⟩ := ih hnone
      refine ⟨by simpa using hlen, ?_⟩
      intro i hi hp
      match i with
      | 0 => simpa using hrow
      | Nat.succ j =>
        have hj : j < (make_summary ps).1.length := by
          simpa using hi
        have hj2 : j < ps.length := by
          simpa using hp
        simpa using hidx j hj hj2

/-- Witness for C8: a one-profile run with no exception has exactly one
row. -/
theorem C8_summary_columns_and_row_order_witness :
    (make_summary [goodProfile]).1.length = ([goodProfile] : List ProfileData).length :=
  (C8_summary_columns_and_row_order.2 [goodProfile] (by with_unfolding_all rfl)).1
